import Mathlib

/-!
Verification development for the hubot-playbook conversation engine.

The embedding models the two coupled state machines of the repository:

* `Dialogue` (branch matching, paths, transcripts and the timeout lifecycle).
  The module source `lib/modules/dialogue.js` is not part of the provided
  sources; its behaviour is modelled from the specification (sections 3, 4.1,
  4.2) and pinned against the unit tests in
  `test/unit/02-Dialogue_test.coffee`.  Such definitions carry a
  `Modelled from the spec:` doc comment.
* `Scene` (participant engagement and routing), translated directly from
  `lib/modules/scene.js`.

Side effects are made explicit: emitted events are appended to event traces,
messages sent to the chat are recorded as `sendE` events and per-path
transcript entries, and timers become a boolean `countdown` flag.  Handler
callbacks and timeout-hook overrides are represented as data describing the
effects they perform when invoked.
-/

namespace Playbook

/-- A chat message: sender's user id, room id and text
(`context.message` of the receive pipeline, section 6 of the spec). -/
structure Msg where
  user : String
  room : String
  text : String
deriving DecidableEq

/-- Scene scope enumeration (`scene.js` constructor: room, user, direct,
private). -/
inductive Scope : Type where
  | user
  | room
  | direct
  | priv
deriving DecidableEq

/-- Per-path transcript entry, a tagged tuple per the spec data model:
("send","bot",text), ("match",user,text) or ("mismatch",user,text). -/
inductive TranscriptEntry : Type where
  | send (who : String) (text : String)
  | matched (user : String) (text : String)
  | mismatch (user : String) (text : String)
deriving DecidableEq

/-- Observable dialogue effects, in emission order: sends to the channel and
the emitted events match / mismatch / timeout / end(status). -/
inductive DEvent : Type where
  | sendE (text : String)
  | matchE (user : String) (text : String)
  | mismatchE (user : String) (text : String)
  | timeoutE
  | endE (complete : Bool)
deriving DecidableEq

/-- Events emitted by a Scene: enter(participantKey) and
exit(participantKey, status). -/
inductive SceneEvent : Type where
  | enterE (key : String)
  | exitE (key : String) (status : String)
deriving DecidableEq

/-- Dialogue configuration (timeout duration, timeout line, sendReplies). -/
structure DialogueConfig where
  timeout : Nat
  timeoutLine : String
  sendReplies : Bool
deriving DecidableEq

/-- Modelled from the spec: a user-supplied branch handler
(`dialogue.js` is not in the provided sources).  A handler is represented by
the branch additions it performs synchronously when invoked: each element is
(pattern, optional reply, optional nested handler).  A handler that performs
no additions is `HandlerSpec.mk []`. -/
inductive HandlerSpec : Type where
  | mk (adds : List ((String → Bool) × Option String × Option HandlerSpec))

/-- The branch additions performed by a handler. -/
def HandlerSpec.adds : HandlerSpec → List ((String → Bool) × Option String × Option HandlerSpec)
  | HandlerSpec.mk a => a

/-- A branch: pattern (modelled as its match predicate on the message text),
optional reply string and optional handler. -/
structure Branch where
  regex : String → Bool
  reply : Option String
  handler : Option HandlerSpec

/-- The reply argument of a `branch` call: a string, or some other
(non-string) value such as null. -/
inductive ReplyArg : Type where
  | str (s : String)
  | notStr

/-- The handler argument of a `branch` call: a callable function (described
by its effects) or a non-callable value. -/
inductive HandlerArg : Type where
  | fn (h : HandlerSpec)
  | notFn

/-- A conversation path: optional prompt, its branches, the registration
results, its transcript and the closed flag (spec data model). -/
structure Path where
  prompt : Option String
  branches : List Branch
  status : List Bool
  transcript : List TranscriptEntry
  closed : Bool

/-- Argument of `Dialogue.path`: optional prompt, branch tuples, optional key
(the object form of `addPath`). -/
structure PathSpec where
  prompt : Option String
  branches : List ((String → Bool) × Option String × Option HandlerSpec)
  key : Option String

/-- Modelled from the spec: the overridable `onTimeout` hook.  The default
sends `config.timeoutLine`; an override is described by the sends it performs
and whether it throws afterwards (the throw is caught by the timeout
boundary). -/
inductive TimeoutHook : Type where
  | default
  | override (sends : List String) (throws : Bool)

/-- Modelled from the spec: Dialogue state — path registry, current path id,
live branch list, ended flag, pending-timer flag, a counter backing path-id
generation, config, the onTimeout hook and the emitted-event trace. -/
structure Dialogue where
  paths : List (String × Path)
  pathId : Option String
  branches : List Branch
  ended : Bool
  countdown : Bool
  keyCount : Nat
  config : DialogueConfig
  hook : TimeoutHook
  events : List DEvent

/-- Scene state: scope, the engaged registry (participantKey to Dialogue) and
the emitted-event trace (`scene.js`). -/
structure Scene where
  scope : Scope
  engaged : List (String × Dialogue)
  events : List SceneEvent

/-- An entry-middleware piece, abstracted to the control decision it makes:
call `next` to continue the pipeline, or halt it (veto). -/
inductive MWPiece : Type where
  | next
  | halt
deriving DecidableEq

/-- Result of `Scene.enter`: resolved ok, rejected because already engaged,
or rejected because middleware halted. -/
inductive EnterResult : Type where
  | ok
  | alreadyEngaged
  | interrupted
deriving DecidableEq

/- ----------------------------------------------------------------- -/
/- Association-list helpers for the string-keyed registries.          -/
/- ----------------------------------------------------------------- -/

/-- Look up a key in a string-keyed association list. -/
def assocGet {α : Type} : List (String × α) → String → Option α
  | [], _ => none
  | (k, v) :: rest, key => if k = key then some v else assocGet rest key

/-- Set a key in a string-keyed association list (replacing an existing
binding). -/
def assocSet {α : Type} : List (String × α) → String → α → List (String × α)
  | [], key, v => [(key, v)]
  | (k, w) :: rest, key, v =>
      if k = key then (k, v) :: rest else (k, w) :: assocSet rest key v

/-- Delete a key from a string-keyed association list. -/
def assocDel {α : Type} : List (String × α) → String → List (String × α)
  | [], _ => []
  | (k, v) :: rest, key =>
      if k = key then assocDel rest key else (k, v) :: assocDel rest key

/- ----------------------------------------------------------------- -/
/- Dialogue operations (modelled from the spec, sections 3/4.1/4.2).  -/
/- ----------------------------------------------------------------- -/

/-- Modelled from the spec: `clearTimeout()` cancels any pending timer;
idempotent. -/
def Dialogue.clearTimeout (d : Dialogue) : Dialogue :=
  { d with countdown := false }

/-- Modelled from the spec: `startTimeout()` arms the one-shot inactivity
timer (a zero timeout disables it). -/
def Dialogue.startTimeout (d : Dialogue) : Dialogue :=
  if d.config.timeout = 0 then d else { d with countdown := true }

/-- Modelled from the spec: clear the live branch list. -/
def Dialogue.clearBranches (d : Dialogue) : Dialogue :=
  { d with branches := [] }

/-- The currently active path, when the current path id is set and present in
the path registry. -/
def Dialogue.currentPath (d : Dialogue) : Option Path :=
  match d.pathId with
  | none => none
  | some id => assocGet d.paths id

/-- Apply an update to the currently active path (no-op when there is no
active path). -/
def Dialogue.updatePath (d : Dialogue) (f : Path → Path) : Dialogue :=
  match d.pathId with
  | none => d
  | some id =>
    match assocGet d.paths id with
    | none => d
    | some p => { d with paths := assocSet d.paths id (f p) }

/-- Modelled from the spec: `send(text)` delivers text to the participant's
channel and appends a ("send","bot",text) entry to the active path's
transcript. -/
def Dialogue.send (d : Dialogue) (text : String) : Dialogue :=
  Dialogue.updatePath { d with events := d.events ++ [DEvent.sendE text] }
    (fun p => { p with transcript := p.transcript ++ [TranscriptEntry.send "bot" text] })

/-- Modelled from the spec: on a branch match, append a match transcript
entry to the active path and emit the `match` event. -/
def Dialogue.recordMatch (d : Dialogue) (user text : String) : Dialogue :=
  Dialogue.updatePath { d with events := d.events ++ [DEvent.matchE user text] }
    (fun p => { p with transcript := p.transcript ++ [TranscriptEntry.matched user text] })

/-- Modelled from the spec: on no branch matching, append a mismatch
transcript entry to the active path and emit the `mismatch` event. -/
def Dialogue.recordMismatch (d : Dialogue) (user text : String) : Dialogue :=
  Dialogue.updatePath { d with events := d.events ++ [DEvent.mismatchE user text] }
    (fun p => { p with transcript := p.transcript ++ [TranscriptEntry.mismatch user text] })

/-- Modelled from the spec: mark the active path closed — the conversation
turn completed at this path (a branch match occurred and no new branch was
added). -/
def Dialogue.closeCurrentPath (d : Dialogue) : Dialogue :=
  Dialogue.updatePath d (fun p => { p with closed := true })

/-- The "completed successfully" status reported by `end`: the active path's
closed flag, false when there is no active path (mirrors
`lastRes.dialogue.path ? path.closed : false` in `scene.js`). -/
def Dialogue.endStatus (d : Dialogue) : Bool :=
  match d.currentPath with
  | some p => p.closed
  | none => false

/-- Modelled from the spec: `end()` — no-op returning failure when already
ended; otherwise set the ended flag, clear the timeout and emit `end` with
the completion status. -/
def Dialogue.endDialogue (d : Dialogue) : Bool × Dialogue :=
  if d.ended then (false, d)
  else
    (true,
      { d with countdown := false, ended := true,
               events := d.events ++ [DEvent.endE d.endStatus] })

/-- Modelled from the spec: branch additions made outside any path install an
implicit current path, so that a completing match can close it (pinned by the
test `.end` / "when triggered by last branch match", which observes `end`
firing with status true for a dialogue whose branches were added directly). -/
def Dialogue.installDefaultPath (d : Dialogue) : Dialogue :=
  match d.pathId with
  | some _ => d
  | none =>
    let id := "path_" ++ toString d.keyCount
    { d with
        keyCount := d.keyCount + 1,
        pathId := some id,
        paths := assocSet d.paths id
          { prompt := none, branches := [], status := [],
            transcript := [], closed := false } }

/-- Modelled from the spec: the successful core of `addBranch` — append the
branch to the live list (and to the active path's record), then restart the
inactivity timeout (cancelling any pending one first). -/
def Dialogue.addValidBranch (d : Dialogue) (rx : String → Bool)
    (reply : Option String) (handler : Option HandlerSpec) : Dialogue :=
  let b : Branch := { regex := rx, reply := reply, handler := handler }
  let d := Dialogue.installDefaultPath d
  let d := { d with branches := d.branches ++ [b] }
  let d := Dialogue.updatePath d
    (fun p => { p with branches := p.branches ++ [b], status := p.status ++ [true] })
  Dialogue.startTimeout (Dialogue.clearTimeout d)

/-- Modelled from the spec: `addBranch(pattern, reply?, handler?)` with its
validation — rejected (returning failure, leaving the dialogue unchanged)
when the dialogue has ended, the pattern is not a valid regex (nor a string
convertible to one), both reply and handler are omitted, the reply argument
is not a string, or the handler argument is not callable. -/
def Dialogue.branch (d : Dialogue) (pattern : Option (String → Bool))
    (reply : Option ReplyArg) (handler : Option HandlerArg) : Bool × Dialogue :=
  if d.ended then (false, d)
  else
    match pattern with
    | none => (false, d)
    | some rx =>
      match reply, handler with
      | some (ReplyArg.str s), none =>
          (true, Dialogue.addValidBranch d rx (some s) none)
      | none, some (HandlerArg.fn h) =>
          (true, Dialogue.addValidBranch d rx none (some h))
      | some (ReplyArg.str s), some (HandlerArg.fn h) =>
          (true, Dialogue.addValidBranch d rx (some s) (some h))
      | _, _ => (false, d)

/-- The branch additions of a handler that pass `addBranch` validation
(a reply or a handler must be present). -/
def validAdds : Option HandlerSpec → List ((String → Bool) × Option String × Option HandlerSpec)
  | none => []
  | some (HandlerSpec.mk adds) =>
      adds.filter (fun a => a.2.1.isSome || a.2.2.isSome)

/-- The branch built from a handler's branch-addition tuple. -/
def mkBranch (a : (String → Bool) × Option String × Option HandlerSpec) : Branch :=
  { regex := a.1, reply := a.2.1, handler := a.2.2 }

/-- Modelled from the spec: invoke a branch handler — it performs its branch
additions through the `branch` call (each validated as usual). -/
def Dialogue.runHandler (d : Dialogue) : Option HandlerSpec → Dialogue
  | none => d
  | some (HandlerSpec.mk adds) =>
      adds.foldl
        (fun d a =>
          (Dialogue.branch d (some a.1) (a.2.1.map ReplyArg.str)
            (a.2.2.map HandlerArg.fn)).2)
        d

/-- Modelled from the spec: the effect of a branch match (the winning branch
`b`): cancel the timeout, record and emit the match, clear the live branch
list, send the branch's reply if any, run its handler (which may add new
branches); if no new branches were added the active path is closed and the
dialogue ends with success status. -/
def Dialogue.matchBranch (d : Dialogue) (b : Branch) (m : Msg) : Dialogue :=
  let d := Dialogue.clearTimeout d
  let d := Dialogue.recordMatch d m.user m.text
  let d := Dialogue.clearBranches d
  let d := match b.reply with
    | some r => Dialogue.send d r
    | none => d
  let d := Dialogue.runHandler d b.handler
  if d.branches.isEmpty then (Dialogue.endDialogue (Dialogue.closeCurrentPath d)).2
  else d

/-- Modelled from the spec: `receive` — ignored entirely (returning false)
when the dialogue has ended; otherwise the first branch (in registration
order) whose pattern matches the message text wins, and with no match a
mismatch is recorded and the timeout restarted. -/
def Dialogue.receive (d : Dialogue) (m : Msg) : Bool × Dialogue :=
  if d.ended then (false, d)
  else
    match d.branches.find? (fun b => b.regex m.text) with
    | some b => (true, Dialogue.matchBranch d b m)
    | none =>
        (true, Dialogue.startTimeout (Dialogue.recordMismatch d m.user m.text))

/-- The sends performed by the onTimeout hook (default: the configured
timeout line). -/
def Dialogue.hookSends (d : Dialogue) : List String :=
  match d.hook with
  | TimeoutHook.default => [d.config.timeoutLine]
  | TimeoutHook.override sends _ => sends

/-- Modelled from the spec: run the (possibly overridden) onTimeout hook,
reporting whether it threw; the sends it performs are applied to the
dialogue. -/
def Dialogue.runTimeoutHook (d : Dialogue) : Dialogue × Bool :=
  match d.hook with
  | TimeoutHook.default => (Dialogue.send d d.config.timeoutLine, false)
  | TimeoutHook.override sends throws => (sends.foldl Dialogue.send d, throws)

/-- Modelled from the spec: the timeout firing — invoke the onTimeout hook
(an exception it throws is caught here, so the returned flag is discarded),
then emit `timeout`, then call `end()`. -/
def Dialogue.fireTimeout (d : Dialogue) : Dialogue :=
  let d := (Dialogue.runTimeoutHook d).1
  let d := { d with events := d.events ++ [DEvent.timeoutE] }
  (Dialogue.endDialogue d).2

/-- Modelled from the spec: `addPath` — compute a path id (from the key, else
the prompt, else the uniqueness counter alone), register a fresh path as the
current one, clear all previously live branches, send the prompt if present,
then install the new path's branches. -/
def Dialogue.path (d : Dialogue) (spec : PathSpec) : String × Dialogue :=
  let id := match spec.key with
    | some k => "path_" ++ k ++ "_" ++ toString d.keyCount
    | none =>
      match spec.prompt with
      | some pr => "path_" ++ pr ++ "_" ++ toString d.keyCount
      | none => "path_" ++ toString d.keyCount
  let d := { d with
      keyCount := d.keyCount + 1,
      pathId := some id,
      paths := assocSet d.paths id
        { prompt := spec.prompt, branches := [], status := [],
          transcript := [], closed := false } }
  let d := Dialogue.clearBranches d
  let d := match spec.prompt with
    | some pr => Dialogue.send d pr
    | none => d
  let d := spec.branches.foldl
    (fun d a => Dialogue.addValidBranch d a.1 a.2.1 a.2.2) d
  (id, d)

/-- A freshly constructed Dialogue (no paths, no branches, not ended, no
pending timer) with the given configuration. -/
def newDialogue (config : DialogueConfig) : Dialogue :=
  { paths := [], pathId := none, branches := [], ended := false,
    countdown := false, keyCount := 0, config := config,
    hook := TimeoutHook.default, events := [] }

/-- The library-default dialogue configuration (environment overrides are out
of scope of the claims). -/
def defaultConfig : DialogueConfig :=
  { timeout := 1000, timeoutLine := "Timed out!", sendReplies := false }

/- ----------------------------------------------------------------- -/
/- Scene operations, translated from lib/modules/scene.js.           -/
/- ----------------------------------------------------------------- -/

/-- `Scene.whoSpeaks` (scene.js lines 134-142): the participant key relative
to the scene scope — room id for room scope, user id for user/private scope,
and the composite `user_room` string for direct scope. -/
def Scene.whoSpeaks (s : Scene) (m : Msg) : String :=
  match s.scope with
  | Scope.room => m.room
  | Scope.user => m.user
  | Scope.priv => m.user
  | Scope.direct => m.user ++ "_" ++ m.room

/-- `Scene.inDialogue` (scene.js lines 299-301): the engaged status for a
participant key. -/
def Scene.inDialogue (s : Scene) (key : String) : Bool :=
  (assocGet s.engaged key).isSome

/-- `Scene.getDialogue` (scene.js lines 289-291): the engaged dialogue for a
participant key. -/
def Scene.getDialogue (s : Scene) (key : String) : Option Dialogue :=
  assocGet s.engaged key

/-- `Scene.exit` (scene.js lines 254-272): no-op returning false when the
participant is not engaged; otherwise clear the dialogue's timeout, remove it
from the registry (its end/timeout listeners are detached with it) and emit
`exit` with the status string. -/
def Scene.exit (s : Scene) (m : Msg) (status : String) : Bool × Scene :=
  let key := Scene.whoSpeaks s m
  match assocGet s.engaged key with
  | some _ =>
      (true,
        { s with engaged := assocDel s.engaged key,
                 events := s.events ++ [SceneEvent.exitE key status] })
  | none => (false, s)

/-- Outcome of the scene's receive-pipeline hook: whether `res.finish()` was
called, whether the hook invoked its `next` continuation, whether it invoked
`done`, and the scene afterwards (the routed dialogue having received the
message). -/
structure MWOutcome where
  finished : Bool
  calledNext : Bool
  calledDone : Bool
  scene : Scene

/-- `Scene.middleware` (scene.js lines 64-78): for an inbound message, when
the computed participant key is engaged, finish the message (suppressing
normal listener dispatch), forward it to that participant's
`dialogue.receive` and call `done` (skipping remaining middleware);
otherwise call `next(done)` leaving everything unchanged. -/
def Scene.middleware (s : Scene) (m : Msg) : MWOutcome :=
  let key := Scene.whoSpeaks s m
  match assocGet s.engaged key with
  | some d =>
      { finished := true, calledNext := false, calledDone := true,
        scene := { s with
          engaged := assocSet s.engaged key (Dialogue.receive d m).2 } }
  | none =>
      { finished := false, calledNext := true, calledDone := false, scene := s }

/-- Execute the entry-middleware stack: true when every piece calls `next`
(the pipeline runs to completion), false when some piece halts. -/
def runStack : List MWPiece → Bool
  | [] => true
  | MWPiece.next :: rest => runStack rest
  | MWPiece.halt :: _ => false

/-- `Scene.processEnter` composed with the enter completion handler
(scene.js lines 188-199 and 228-245): construct a new Dialogue, store it in
the engaged registry under the participant key, emit `enter`, then (next
tick) run the caller's callback — modelled by the list of path specs it adds
to the dialogue — and finally, if the dialogue still has no active path, exit
the participant with status "no path". -/
def Scene.processEnter (s : Scene) (m : Msg) (cb : List PathSpec) : Scene :=
  let key := Scene.whoSpeaks s m
  let d1 := cb.foldl (fun d ps => (Dialogue.path d ps).2) (newDialogue defaultConfig)
  let s2 : Scene := { s with
      engaged := assocSet s.engaged key d1,
      events := s.events ++ [SceneEvent.enterE key] }
  if d1.pathId.isSome then s2 else (Scene.exit s2 m "no path").2

/-- `Scene.enter` (scene.js lines 178-209): rejected immediately when the
participant is already engaged; otherwise the entry middleware stack runs
and, when it completes, `processEnter` engages the participant. A middleware
halt leaves the scene untouched (rejected as interrupted). -/
def Scene.enter (s : Scene) (mids : List MWPiece) (m : Msg) (cb : List PathSpec) :
    EnterResult × Scene :=
  if Scene.inDialogue s (Scene.whoSpeaks s m) then (EnterResult.alreadyEngaged, s)
  else if runStack mids then (EnterResult.ok, Scene.processEnter s m cb)
  else (EnterResult.interrupted, s)

/-- The operations that can touch a Scene's engaged registry: an `enter`
attempt, an `exit` call, and the Scene's reactions (its registered listeners)
to an engaged dialogue's `end` or `timeout` events. -/
inductive SceneOp : Type where
  | enterOp (mids : List MWPiece) (m : Msg) (cb : List PathSpec)
  | exitOp (m : Msg) (status : String)
  | dEndOp (m : Msg)
  | dTimeoutOp (m : Msg)

/-- One scene transition.  For `dEndOp` the engaged dialogue's `end` fires
and the Scene's end listener exits the participant with the
complete/incomplete status (scene.js lines 236-239); for `dTimeoutOp` the
dialogue's timeout sequence runs and the Scene's timeout listener exits the
participant with status "timeout" (scene.js lines 233-235). -/
def Scene.step (s : Scene) : SceneOp → Scene
  | SceneOp.enterOp mids m cb => (Scene.enter s mids m cb).2
  | SceneOp.exitOp m status => (Scene.exit s m status).2
  | SceneOp.dEndOp m =>
      match assocGet s.engaged (Scene.whoSpeaks s m) with
      | some d =>
          let s1 : Scene := { s with
            engaged := assocSet s.engaged (Scene.whoSpeaks s m)
              (Dialogue.endDialogue d).2 }
          (Scene.exit s1 m
            (if Dialogue.endStatus d then "complete" else "incomplete")).2
      | none => s
  | SceneOp.dTimeoutOp m =>
      match assocGet s.engaged (Scene.whoSpeaks s m) with
      | some d =>
          let s1 : Scene := { s with
            engaged := assocSet s.engaged (Scene.whoSpeaks s m)
              (Dialogue.fireTimeout d) }
          (Scene.exit s1 m "timeout").2
      | none => s

/-- A freshly constructed Scene of the given scope: empty engaged registry
(scene.js constructor). -/
def initScene (scope : Scope) : Scene :=
  { scope := scope, engaged := [], events := [] }

/-- The Scene/Dialogue lockstep invariant: every dialogue held in the engaged
registry is live (non-ended). -/
def SceneInv (s : Scene) : Prop :=
  ∀ k d, assocGet s.engaged k = some d → d.ended = false

/- ----------------------------------------------------------------- -/
/- Concrete instances used to exercise the theorems at inputs.        -/
/- ----------------------------------------------------------------- -/

/-- A message from user alice in room lobby. -/
def engagedMsg : Msg := { user := "alice", room := "lobby", text := "hello" }

/-- A user-scoped scene with alice already engaged. -/
def engagedScene : Scene :=
  { scope := Scope.user,
    engaged := [("alice", newDialogue defaultConfig)],
    events := [] }

/-- A message from a user not engaged anywhere. -/
def demoMsg : Msg := { user := "u1", room := "room1", text := "hello" }

/-- A path spec with a key and no branches. -/
def demoPathSpec : PathSpec := { prompt := none, branches := [], key := some "k" }

/-- User "a_b" speaking in room "c" (direct-scope key "a_b_c"). -/
def directMsg1 : Msg := { user := "a_b", room := "c", text := "hi" }

/-- User "a" speaking in room "b_c" (direct-scope key "a_b_c" as well). -/
def directMsg2 : Msg := { user := "a", room := "b_c", text := "hi" }

/-- A branch matching only the text no. -/
def branchNo : Branch :=
  { regex := fun s => s == "no", reply := some "nope", handler := none }

/-- A branch matching only the text yes. -/
def branchYes : Branch :=
  { regex := fun s => s == "yes", reply := some "yep", handler := none }

/-- A catch-all branch registered after branchYes. -/
def branchLate : Branch :=
  { regex := fun _ => true, reply := some "late", handler := none }

/-- A dialogue whose live branches are no / yes / catch-all, in that order. -/
def dialFirst : Dialogue :=
  { newDialogue defaultConfig with branches := [branchNo, branchYes, branchLate] }

/-- The inbound text yes, matching branchYes and branchLate. -/
def msgYes : Msg := { user := "u", room := "r", text := "yes" }

/-- A branch addition matching the text 1 with a reply and no handler. -/
def addOne : (String → Bool) × Option String × Option HandlerSpec :=
  (fun s => s == "1", some "got 1", none)

/-- A path offering only the addOne choice. -/
def specOne : PathSpec := { prompt := some "pick", branches := [addOne], key := some "w" }

/-- A dialogue with the specOne path installed. -/
def dialOne : Dialogue := (Dialogue.path (newDialogue defaultConfig) specOne).2

/-- The branch built from addOne. -/
def branchOne : Branch := mkBranch addOne

/-- The inbound text 1. -/
def msgOne : Msg := { user := "u", room := "r", text := "1" }

/-- A handler that adds one follow-up branch when invoked. -/
def handlerGo : HandlerSpec :=
  HandlerSpec.mk [(fun s => s == "yes", some "ok", none)]

/-- A branch addition whose handler adds a follow-up branch. -/
def addGo : (String → Bool) × Option String × Option HandlerSpec :=
  (fun s => s == "go", none, some handlerGo)

/-- A path offering only the addGo choice. -/
def specGo : PathSpec := { prompt := none, branches := [addGo], key := some "g" }

/-- A dialogue with the specGo path installed. -/
def dialGo : Dialogue := (Dialogue.path (newDialogue defaultConfig) specGo).2

/-- The branch built from addGo. -/
def branchGo : Branch := mkBranch addGo

/-- The inbound text go. -/
def msgGo : Msg := { user := "u", room := "r", text := "go" }

/-- A live dialogue with a pending timeout whose onTimeout override throws
after sending one line. -/
def dialHook : Dialogue :=
  { newDialogue defaultConfig with
      hook := TimeoutHook.override ["oops"] true, countdown := true }

theorem assocGet_set_eq {α : Type} (l : List (String × α)) (k : String) (v : α) :
    assocGet (assocSet l k v) k = some v := by
  induction l with
  | nil => simp [assocGet, assocSet]
  | cons hd tl ih =>
      obtain ⟨k0, v0⟩ := hd
      by_cases h : k0 = k
      · simp [assocGet, assocSet, h]
      · simp [assocGet, assocSet, h, ih]

theorem assocGet_set_ne {α : Type} (l : List (String × α)) (k q : String) (v : α)
    (h : q ≠ k) : assocGet (assocSet l k v) q = assocGet l q := by
  have hkq : ¬ k = q := fun hh => h hh.symm
  induction l with
  | nil => simp [assocGet, assocSet, hkq]
  | cons hd tl ih =>
      obtain ⟨k0, v0⟩ := hd
      by_cases h0 : k0 = k
      · subst h0
        simp [assocGet, assocSet, hkq]
      · by_cases h1 : k0 = q
        · simp [assocGet, assocSet, h0, h1, h]
        · simp [assocGet, assocSet, h0, h1, ih]

theorem assocGet_del_eq {α : Type} (l : List (String × α)) (k : String) :
    assocGet (assocDel l k) k = none := by
  induction l with
  | nil => simp [assocGet, assocDel]
  | cons hd tl ih =>
      obtain ⟨k0, v0⟩ := hd
      by_cases h : k0 = k
      · simp [assocDel, h, ih]
      · simp [assocGet, assocDel, h, ih]

theorem assocGet_del_ne {α : Type} (l : List (String × α)) (k q : String)
    (h : q ≠ k) : assocGet (assocDel l k) q = assocGet l q := by
  have hkq : ¬ k = q := fun hh => h hh.symm
  induction l with
  | nil => simp [assocDel]
  | cons hd tl ih =>
      obtain ⟨k0, v0⟩ := hd
      by_cases h0 : k0 = k
      · subst h0
        simp [assocGet, assocDel, hkq, ih]
      · by_cases h1 : k0 = q
        · simp [assocGet, assocDel, h0, h1, h]
        · simp [assocGet, assocDel, h0, h1, ih]

/- ----------------------------------------------------------------- -/
/- Preservation lemmas for Dialogue operations.                       -/
/- ----------------------------------------------------------------- -/

theorem updatePath_pathId (d : Dialogue) (f : Path → Path) :
    (Dialogue.updatePath d f).pathId = d.pathId := by
  unfold Dialogue.updatePath
  cases hp : d.pathId with
  | none => simp [hp]
  | some id => cases hg : assocGet d.paths id <;> simp [hp, hg]

theorem updatePath_ended (d : Dialogue) (f : Path → Path) :
    (Dialogue.updatePath d f).ended = d.ended := by
  unfold Dialogue.updatePath
  cases hp : d.pathId with
  | none => simp
  | some id => cases hg : assocGet d.paths id <;> simp [hg]

theorem updatePath_branches (d : Dialogue) (f : Path → Path) :
    (Dialogue.updatePath d f).branches = d.branches := by
  unfold Dialogue.updatePath
  cases hp : d.pathId with
  | none => simp
  | some id => cases hg : assocGet d.paths id <;> simp [hg]

theorem updatePath_countdown (d : Dialogue) (f : Path → Path) :
    (Dialogue.updatePath d f).countdown = d.countdown := by
  unfold Dialogue.updatePath
  cases hp : d.pathId with
  | none => simp
  | some id => cases hg : assocGet d.paths id <;> simp [hg]

theorem updatePath_events (d : Dialogue) (f : Path → Path) :
    (Dialogue.updatePath d f).events = d.events := by
  unfold Dialogue.updatePath
  cases hp : d.pathId with
  | none => simp
  | some id => cases hg : assocGet d.paths id <;> simp [hg]

theorem updatePath_currentPath (d : Dialogue) (f : Path → Path) :
    Dialogue.currentPath (Dialogue.updatePath d f)
      = (Dialogue.currentPath d).map f := by
  unfold Dialogue.updatePath Dialogue.currentPath
  cases hp : d.pathId with
  | none => simp [hp]
  | some id =>
      cases hg : assocGet d.paths id with
      | none => simp [hp, hg]
      | some p => simp [hp, hg, assocGet_set_eq]

theorem currentPath_set_events (d : Dialogue) (E : List DEvent) :
    Dialogue.currentPath { d with events := E } = Dialogue.currentPath d := rfl

theorem endStatus_eq_closedMap (d : Dialogue) :
    Dialogue.endStatus d = ((Dialogue.currentPath d).map Path.closed).getD false := by
  unfold Dialogue.endStatus
  cases Dialogue.currentPath d <;> rfl

theorem send_ended (d : Dialogue) (t : String) :
    (Dialogue.send d t).ended = d.ended := by
  unfold Dialogue.send
  rw [updatePath_ended]

theorem send_branches (d : Dialogue) (t : String) :
    (Dialogue.send d t).branches = d.branches := by
  unfold Dialogue.send
  rw [updatePath_branches]

theorem send_events (d : Dialogue) (t : String) :
    (Dialogue.send d t).events = d.events ++ [DEvent.sendE t] := by
  unfold Dialogue.send
  rw [updatePath_events]

theorem send_pathId (d : Dialogue) (t : String) :
    (Dialogue.send d t).pathId = d.pathId := by
  unfold Dialogue.send
  rw [updatePath_pathId]

theorem send_countdown (d : Dialogue) (t : String) :
    (Dialogue.send d t).countdown = d.countdown := by
  unfold Dialogue.send
  rw [updatePath_countdown]

theorem send_closedMap (d : Dialogue) (t : String) :
    (Dialogue.currentPath (Dialogue.send d t)).map Path.closed
      = (Dialogue.currentPath d).map Path.closed := by
  unfold Dialogue.send
  rw [updatePath_currentPath, currentPath_set_events]
  cases Dialogue.currentPath d <;> rfl

theorem send_currentPath_isSome (d : Dialogue) (t : String) :
    (Dialogue.currentPath (Dialogue.send d t)).isSome
      = (Dialogue.currentPath d).isSome := by
  unfold Dialogue.send
  rw [updatePath_currentPath, currentPath_set_events]
  cases Dialogue.currentPath d <;> rfl

theorem recordMatch_ended (d : Dialogue) (u t : String) :
    (Dialogue.recordMatch d u t).ended = d.ended := by
  unfold Dialogue.recordMatch
  rw [updatePath_ended]

theorem recordMatch_branches (d : Dialogue) (u t : String) :
    (Dialogue.recordMatch d u t).branches = d.branches := by
  unfold Dialogue.recordMatch
  rw [updatePath_branches]

theorem recordMatch_events (d : Dialogue) (u t : String) :
    (Dialogue.recordMatch d u t).events = d.events ++ [DEvent.matchE u t] := by
  unfold Dialogue.recordMatch
  rw [updatePath_events]

theorem recordMatch_closedMap (d : Dialogue) (u t : String) :
    (Dialogue.currentPath (Dialogue.recordMatch d u t)).map Path.closed
      = (Dialogue.currentPath d).map Path.closed := by
  unfold Dialogue.recordMatch
  rw [updatePath_currentPath, currentPath_set_events]
  cases Dialogue.currentPath d <;> rfl

theorem recordMatch_currentPath_isSome (d : Dialogue) (u t : String) :
    (Dialogue.currentPath (Dialogue.recordMatch d u t)).isSome
      = (Dialogue.currentPath d).isSome := by
  unfold Dialogue.recordMatch
  rw [updatePath_currentPath, currentPath_set_events]
  cases Dialogue.currentPath d <;> rfl

theorem clearTimeout_ended (d : Dialogue) :
    (Dialogue.clearTimeout d).ended = d.ended := rfl

theorem clearTimeout_branches (d : Dialogue) :
    (Dialogue.clearTimeout d).branches = d.branches := rfl

theorem clearTimeout_events (d : Dialogue) :
    (Dialogue.clearTimeout d).events = d.events := rfl

theorem clearTimeout_currentPath (d : Dialogue) :
    Dialogue.currentPath (Dialogue.clearTimeout d) = Dialogue.currentPath d := rfl

theorem startTimeout_ended (d : Dialogue) :
    (Dialogue.startTimeout d).ended = d.ended := by
  unfold Dialogue.startTimeout
  split <;> rfl

theorem startTimeout_branches (d : Dialogue) :
    (Dialogue.startTimeout d).branches = d.branches := by
  unfold Dialogue.startTimeout
  split <;> rfl

theorem startTimeout_events (d : Dialogue) :
    (Dialogue.startTimeout d).events = d.events := by
  unfold Dialogue.startTimeout
  split <;> rfl

theorem startTimeout_currentPath (d : Dialogue) :
    Dialogue.currentPath (Dialogue.startTimeout d) = Dialogue.currentPath d := by
  unfold Dialogue.startTimeout
  split <;> rfl

theorem clearBranches_ended (d : Dialogue) :
    (Dialogue.clearBranches d).ended = d.ended := rfl

theorem clearBranches_branches (d : Dialogue) :
    (Dialogue.clearBranches d).branches = [] := rfl

theorem clearBranches_events (d : Dialogue) :
    (Dialogue.clearBranches d).events = d.events := rfl

theorem clearBranches_currentPath (d : Dialogue) :
    Dialogue.currentPath (Dialogue.clearBranches d) = Dialogue.currentPath d := rfl

theorem installDefaultPath_ended (d : Dialogue) :
    (Dialogue.installDefaultPath d).ended = d.ended := by
  unfold Dialogue.installDefaultPath
  cases d.pathId <;> rfl

theorem installDefaultPath_branches (d : Dialogue) :
    (Dialogue.installDefaultPath d).branches = d.branches := by
  unfold Dialogue.installDefaultPath
  cases d.pathId <;> rfl

theorem installDefaultPath_events (d : Dialogue) :
    (Dialogue.installDefaultPath d).events = d.events := by
  unfold Dialogue.installDefaultPath
  cases d.pathId <;> rfl

theorem installDefaultPath_of_isSome (d : Dialogue)
    (h : (Dialogue.currentPath d).isSome = true) :
    Dialogue.installDefaultPath d = d := by
  unfold Dialogue.installDefaultPath
  cases hp : d.pathId with
  | some id => rfl
  | none =>
      exfalso
      unfold Dialogue.currentPath at h
      rw [hp] at h
      simp at h

theorem addValidBranch_ended (d : Dialogue) (rx : String → Bool)
    (r : Option String) (h : Option HandlerSpec) :
    (Dialogue.addValidBranch d rx r h).ended = d.ended := by
  unfold Dialogue.addValidBranch
  rw [startTimeout_ended, clearTimeout_ended, updatePath_ended]
  exact installDefaultPath_ended d

theorem addValidBranch_branches (d : Dialogue) (rx : String → Bool)
    (r : Option String) (h : Option HandlerSpec) :
    (Dialogue.addValidBranch d rx r h).branches
      = d.branches ++ [{ regex := rx, reply := r, handler := h }] := by
  unfold Dialogue.addValidBranch
  rw [startTimeout_branches, clearTimeout_branches, updatePath_branches]
  show (Dialogue.installDefaultPath d).branches ++ _ = _
  rw [installDefaultPath_branches]

theorem addValidBranch_closedMap (d : Dialogue) (rx : String → Bool)
    (r : Option String) (h : Option HandlerSpec)
    (hcp : (Dialogue.currentPath d).isSome = true) :
    ((Dialogue.currentPath (Dialogue.addValidBranch d rx r h)).map Path.closed
        = (Dialogue.currentPath d).map Path.closed) ∧
    (Dialogue.currentPath (Dialogue.addValidBranch d rx r h)).isSome = true := by
  unfold Dialogue.addValidBranch
  rw [startTimeout_currentPath, clearTimeout_currentPath, updatePath_currentPath]
  rw [installDefaultPath_of_isSome d hcp]
  have hsame : Dialogue.currentPath
      { d with branches := d.branches ++ [{ regex := rx, reply := r, handler := h }] }
      = Dialogue.currentPath d := rfl
  rw [hsame]
  cases hc : Dialogue.currentPath d with
  | none => rw [hc] at hcp; simp at hcp
  | some p => exact ⟨rfl, rfl⟩

theorem closeCurrentPath_ended (d : Dialogue) :
    (Dialogue.closeCurrentPath d).ended = d.ended := by
  unfold Dialogue.closeCurrentPath
  rw [updatePath_ended]

theorem closeCurrentPath_events (d : Dialogue) :
    (Dialogue.closeCurrentPath d).events = d.events := by
  unfold Dialogue.closeCurrentPath
  rw [updatePath_events]

theorem closeCurrentPath_closedMap (d : Dialogue)
    (hcp : (Dialogue.currentPath d).isSome = true) :
    (Dialogue.currentPath (Dialogue.closeCurrentPath d)).map Path.closed
      = some true := by
  unfold Dialogue.closeCurrentPath
  rw [updatePath_currentPath]
  cases hc : Dialogue.currentPath d with
  | none => rw [hc] at hcp; simp at hcp
  | some p => rfl

theorem endDialogue_of_not_ended (d : Dialogue) (h : d.ended = false) :
    Dialogue.endDialogue d =
      (true, { d with countdown := false, ended := true,
                      events := d.events ++ [DEvent.endE (Dialogue.endStatus d)] }) := by
  unfold Dialogue.endDialogue
  rw [h]
  rfl

theorem endDialogue_of_ended (d : Dialogue) (h : d.ended = true) :
    Dialogue.endDialogue d = (false, d) := by
  unfold Dialogue.endDialogue
  rw [h]
  rfl

theorem endDialogue_currentPath (d : Dialogue) :
    Dialogue.currentPath (Dialogue.endDialogue d).2 = Dialogue.currentPath d := by
  unfold Dialogue.endDialogue
  cases d.ended <;> rfl

/-- The net effect of one handler-performed `branch` call on the dialogue
state: a valid addition appends the built branch, an invalid one leaves the
dialogue unchanged, and in both cases ended and the current path are
preserved. -/
theorem branch_step_state (d : Dialogue)
    (a : (String → Bool) × Option String × Option HandlerSpec)
    (hend : d.ended = false) :
    (Dialogue.branch d (some a.1) (a.2.1.map ReplyArg.str)
        (a.2.2.map HandlerArg.fn)).2
      = (if a.2.1.isSome || a.2.2.isSome then
          Dialogue.addValidBranch d a.1 a.2.1 a.2.2 else d) := by
  obtain ⟨rx, r, h⟩ := a
  cases r with
  | some s =>
      cases h with
      | some hs => simp [Dialogue.branch, hend]
      | none => simp [Dialogue.branch, hend]
  | none =>
      cases h with
      | some hs => simp [Dialogue.branch, hend]
      | none => simp [Dialogue.branch, hend]

/-- Running a handler keeps the dialogue live, appends exactly the valid
additions (as branches) to the live branch list, and preserves the current
path and its closed flag. -/
theorem runHandler_state (adds : List ((String → Bool) × Option String × Option HandlerSpec)) :
    ∀ d : Dialogue, d.ended = false →
      (Dialogue.runHandler d (some (HandlerSpec.mk adds))).ended = false ∧
      (Dialogue.runHandler d (some (HandlerSpec.mk adds))).branches
        = d.branches ++ (validAdds (some (HandlerSpec.mk adds))).map mkBranch ∧
      ((Dialogue.currentPath d).isSome = true →
        (Dialogue.currentPath (Dialogue.runHandler d (some (HandlerSpec.mk adds)))).isSome = true ∧
        (Dialogue.currentPath (Dialogue.runHandler d (some (HandlerSpec.mk adds)))).map Path.closed
          = (Dialogue.currentPath d).map Path.closed) := by
  induction adds with
  | nil =>
      intro d hend
      refine ⟨hend, ?_, ?_⟩
      · simp [Dialogue.runHandler, validAdds]
      · intro hcp
        exact ⟨hcp, rfl⟩
  | cons a rest ih =>
      intro d hend
      have hstep : Dialogue.runHandler d (some (HandlerSpec.mk (a :: rest)))
          = Dialogue.runHandler
              ((Dialogue.branch d (some a.1) (a.2.1.map ReplyArg.str)
                (a.2.2.map HandlerArg.fn)).2)
              (some (HandlerSpec.mk rest)) := by
        simp [Dialogue.runHandler]
      rw [hstep, branch_step_state d a hend]
      by_cases hv : a.2.1.isSome || a.2.2.isSome
      · rw [if_pos hv]
        have hend2 : (Dialogue.addValidBranch d a.1 a.2.1 a.2.2).ended = false := by
          rw [addValidBranch_ended]; exact hend
        obtain ⟨ih1, ih2, ih3⟩ := ih (Dialogue.addValidBranch d a.1 a.2.1 a.2.2) hend2
        refine ⟨ih1, ?_, ?_⟩
        · rw [ih2, addValidBranch_branches]
          have hva : validAdds (some (HandlerSpec.mk (a :: rest)))
              = a :: validAdds (some (HandlerSpec.mk rest)) := by
            simp [validAdds, List.filter, hv]
          rw [hva]
          simp [mkBranch]
        · intro hcp
          obtain ⟨hpres, hclosed⟩ := addValidBranch_closedMap d a.1 a.2.1 a.2.2 hcp
          obtain ⟨ihA, ihB⟩ := ih3 hclosed
          exact ⟨ihA, by rw [ihB, hpres]⟩
      · rw [if_neg hv]
        obtain ⟨ih1, ih2, ih3⟩ := ih d hend
        refine ⟨ih1, ?_, ih3⟩
        rw [ih2]
        have hva : validAdds (some (HandlerSpec.mk (a :: rest)))
            = validAdds (some (HandlerSpec.mk rest)) := by
          simp [validAdds, List.filter, hv]
        rw [hva]

/-- `runHandler` on an absent handler is the identity. -/
theorem runHandler_none (d : Dialogue) :
    Dialogue.runHandler d none = d := rfl

/-- `find?` returns the first element satisfying the predicate: with a
non-matching prefix it selects the head of the remainder. -/
theorem find?_first {α : Type} (p : α → Bool) :
    ∀ (pre : List α) (b : α) (post : List α),
      (∀ x ∈ pre, p x = false) → p b = true →
      (pre ++ b :: post).find? p = some b := by
  intro pre
  induction pre with
  | nil =>
      intro b post hpre hb
      rw [List.nil_append]
      exact List.find?_cons_of_pos post hb
  | cons x xs ih =>
      intro b post hpre hb
      have hx : p x = false := hpre x (by simp)
      rw [List.cons_append, List.find?_cons_of_neg _ (by simp [hx])]
      exact ih b post (fun y hy => hpre y (by simp [hy])) hb

theorem updatePath_set_branches (d : Dialogue) (X : List Branch) (f : Path → Path) :
    Dialogue.updatePath { d with branches := X } f
      = { Dialogue.updatePath d f with branches := X } := by
  unfold Dialogue.updatePath
  cases hp : d.pathId with
  | none => simp [hp]
  | some id => cases hg : assocGet d.paths id <;> simp [hp, hg]

theorem recordMatch_set_branches (d : Dialogue) (X : List Branch) (u t : String) :
    Dialogue.recordMatch { d with branches := X } u t
      = { Dialogue.recordMatch d u t with branches := X } := by
  unfold Dialogue.recordMatch
  exact updatePath_set_branches { d with events := d.events ++ [DEvent.matchE u t] } X _

/-- The effect of a branch match does not depend on the live branch list that
was in place when the match happened (it is cleared before the reply and
handler run): later branches are never consulted. -/
theorem matchBranch_branches_irrel (d : Dialogue) (X : List Branch) (b : Branch) (m : Msg) :
    Dialogue.matchBranch { d with branches := X } b m = Dialogue.matchBranch d b m := by
  have e1 : Dialogue.clearTimeout { d with branches := X }
      = { Dialogue.clearTimeout d with branches := X } := rfl
  have h1 : Dialogue.clearBranches
        (Dialogue.recordMatch (Dialogue.clearTimeout { d with branches := X }) m.user m.text)
      = Dialogue.clearBranches
        (Dialogue.recordMatch (Dialogue.clearTimeout d) m.user m.text) := by
    rw [e1, recordMatch_set_branches]
    rfl
  exact congrArg
    (fun x : Dialogue =>
      let d4 := match b.reply with
        | some r => Dialogue.send x r
        | none => x
      let d5 := Dialogue.runHandler d4 b.handler
      if d5.branches.isEmpty then
        (Dialogue.endDialogue (Dialogue.closeCurrentPath d5)).2
      else d5)
    h1

/-- `matchBranch` written as an explicit composition of its stages. -/
theorem matchBranch_eq (d : Dialogue) (b : Branch) (m : Msg) :
    Dialogue.matchBranch d b m =
      (let d4 := match b.reply with
        | some r => Dialogue.send
            (Dialogue.clearBranches
              (Dialogue.recordMatch (Dialogue.clearTimeout d) m.user m.text)) r
        | none => Dialogue.clearBranches
            (Dialogue.recordMatch (Dialogue.clearTimeout d) m.user m.text)
       let d5 := Dialogue.runHandler d4 b.handler
       if d5.branches.isEmpty then
         (Dialogue.endDialogue (Dialogue.closeCurrentPath d5)).2
       else d5) := rfl

theorem endDialogue_snd_ended (d : Dialogue) (h : d.ended = false) :
    (Dialogue.endDialogue d).2.ended = true := by
  rw [endDialogue_of_not_ended _ h]

theorem endDialogue_snd_events (d : Dialogue) (h : d.ended = false) :
    (Dialogue.endDialogue d).2.events
      = d.events ++ [DEvent.endE (Dialogue.endStatus d)] := by
  rw [endDialogue_of_not_ended _ h]

theorem endDialogue_snd_countdown (d : Dialogue) (h : d.ended = false) :
    (Dialogue.endDialogue d).2.countdown = false := by
  rw [endDialogue_of_not_ended _ h]

/-- Closing the current path and then ending yields an ended dialogue whose
current path is closed, with `end` emitted last carrying success status
true. -/
theorem end_after_close (d5 : Dialogue) (hend5 : d5.ended = false)
    (hcp5 : (Dialogue.currentPath d5).isSome = true) :
    (Dialogue.endDialogue (Dialogue.closeCurrentPath d5)).2.ended = true ∧
    (Dialogue.currentPath (Dialogue.endDialogue (Dialogue.closeCurrentPath d5)).2).map Path.closed
      = some true ∧
    ((Dialogue.endDialogue (Dialogue.closeCurrentPath d5)).2.events).getLast?
      = some (DEvent.endE true) := by
  have hcl : (Dialogue.currentPath (Dialogue.closeCurrentPath d5)).map Path.closed
      = some true := closeCurrentPath_closedMap d5 hcp5
  have hendc : (Dialogue.closeCurrentPath d5).ended = false := by
    rw [closeCurrentPath_ended]; exact hend5
  have hst : Dialogue.endStatus (Dialogue.closeCurrentPath d5) = true := by
    rw [endStatus_eq_closedMap, hcl]; rfl
  refine ⟨endDialogue_snd_ended _ hendc, ?_, ?_⟩
  · rw [endDialogue_currentPath, hcl]
  · rw [endDialogue_snd_events _ hendc, hst, List.getLast?_concat]

/- ----------------------------------------------------------------- -/
/- Claim theorems.                                                    -/
/- ----------------------------------------------------------------- -/

/-- Claim C4: a dialogue enters the ended state at most once — the first
`end()` call returns success, sets the ended flag, clears the timeout and
emits the `end` event exactly once (appending it to the trace), and every
subsequent `end()` call returns failure without re-emitting `end` and without
changing any state. -/
theorem end_transitions_once (d : Dialogue) :
    (d.ended = false →
      (Dialogue.endDialogue d).1 = true ∧
      (Dialogue.endDialogue d).2.ended = true ∧
      (Dialogue.endDialogue d).2.countdown = false ∧
      (Dialogue.endDialogue d).2.events
        = d.events ++ [DEvent.endE (Dialogue.endStatus d)] ∧
      Dialogue.endDialogue (Dialogue.endDialogue d).2
        = (false, (Dialogue.endDialogue d).2)) ∧
    (d.ended = true → Dialogue.endDialogue d = (false, d)) := by
  constructor
  · intro h
    refine ⟨?_, endDialogue_snd_ended d h, endDialogue_snd_countdown d h,
      endDialogue_snd_events d h, ?_⟩
    · rw [endDialogue_of_not_ended d h]
    · exact endDialogue_of_ended _ (endDialogue_snd_ended d h)
  · intro h
    exact endDialogue_of_ended d h

/-- Witness for C4: ending a fresh dialogue succeeds and sets the flag; a
second `end()` on the result returns failure without changing anything. -/
theorem end_transitions_once_witness :
    (newDialogue defaultConfig).ended = false ∧
    (Dialogue.endDialogue (newDialogue defaultConfig)).2.ended = true ∧
    Dialogue.endDialogue (Dialogue.endDialogue (newDialogue defaultConfig)).2
      = (false, (Dialogue.endDialogue (newDialogue defaultConfig)).2) :=
  ⟨rfl, ((end_transitions_once (newDialogue defaultConfig)).1 rfl).2.1,
    ((end_transitions_once (newDialogue defaultConfig)).1 rfl).2.2.2.2⟩

/-- Claim C8: an `addBranch` call whose pattern is not a valid regex (nor a
string convertible to one), or that omits both reply and handler, or whose
handler argument is not callable, returns failure without throwing and
leaves the entire dialogue state — in particular the live branch list and
the timeout state — unchanged. -/
theorem branch_rejects_bad_args (d : Dialogue) (pattern : Option (String → Bool))
    (reply : Option ReplyArg) (handler : Option HandlerArg)
    (h : pattern = none ∨ (reply = none ∧ handler = none)
       ∨ handler = some HandlerArg.notFn) :
    Dialogue.branch d pattern reply handler = (false, d) := by
  rcases h with h | ⟨hr, hh⟩ | h
  · subst h
    by_cases he : d.ended <;> simp [Dialogue.branch, he]
  · subst hr; subst hh
    by_cases he : d.ended <;> cases pattern <;> simp [Dialogue.branch, he]
  · subst h
    by_cases he : d.ended
    · simp [Dialogue.branch, he]
    · cases pattern with
      | none => simp [Dialogue.branch, he]
      | some rx =>
          cases reply with
          | none => simp [Dialogue.branch, he]
          | some ra => cases ra <;> simp [Dialogue.branch, he]

/-- Witness for C8: `addBranch(/x/, null)` — valid pattern, no reply, no
handler — returns failure and the branch list length is unchanged. -/
theorem branch_rejects_bad_args_witness :
    ((none : Option ReplyArg) = none ∧ (none : Option HandlerArg) = none) ∧
    Dialogue.branch (newDialogue defaultConfig)
        (some (fun s => s.contains 'x')) none none
      = (false, newDialogue defaultConfig) ∧
    (Dialogue.branch (newDialogue defaultConfig)
        (some (fun s => s.contains 'x')) none none).2.branches.length
      = (newDialogue defaultConfig).branches.length :=
  ⟨⟨rfl, rfl⟩,
   branch_rejects_bad_args _ _ _ _ (Or.inr (Or.inl ⟨rfl, rfl⟩)),
   by rw [branch_rejects_bad_args (newDialogue defaultConfig)
      (some (fun s => s.contains 'x')) none none (Or.inr (Or.inl ⟨rfl, rfl⟩))]⟩

/-- Claim C5: `enter()` for a message whose participant is already engaged is
rejected immediately — the scene (in particular the engaged registry) is left
completely unchanged, no second Dialogue is created, and the result does not
depend on the entry middleware stack or the callback, which are never run
(scene.js lines 178-180 check engagement before executing the pipeline). -/
theorem enter_already_engaged (s : Scene) (mids : List MWPiece) (m : Msg)
    (cb : List PathSpec)
    (h : Scene.inDialogue s (Scene.whoSpeaks s m) = true) :
    Scene.enter s mids m cb = (EnterResult.alreadyEngaged, s) := by
  simp [Scene.enter, h]

/-- Witness for C5: entering while alice is engaged is rejected with the
scene unchanged. -/
theorem enter_already_engaged_witness :
    Scene.inDialogue engagedScene (Scene.whoSpeaks engagedScene engagedMsg) = true ∧
    Scene.enter engagedScene [] engagedMsg []
      = (EnterResult.alreadyEngaged, engagedScene) :=
  ⟨rfl, enter_already_engaged engagedScene [] engagedMsg [] rfl⟩

/-- Claim C6: the Scene receive-pipeline hook — when the computed participant
key is engaged the message is finished (suppressing normal listener
dispatch), forwarded to that participant's `dialogue.receive`, and `done` is
called so the remaining middleware is skipped; when it is not engaged the
hook calls `next(done)` and changes nothing. -/
theorem middleware_routing (s : Scene) (m : Msg) :
    (∀ d : Dialogue,
      assocGet s.engaged (Scene.whoSpeaks s m) = some d →
      Scene.middleware s m =
        { finished := true, calledNext := false, calledDone := true,
          scene := { s with engaged := (assocSet s.engaged (Scene.whoSpeaks s m)
            (Dialogue.receive d m).2) } }) ∧
    (assocGet s.engaged (Scene.whoSpeaks s m) = none →
      Scene.middleware s m =
        { finished := false, calledNext := true, calledDone := false,
          scene := s }) := by
  constructor
  · intro d hd
    simp [Scene.middleware, hd]
  · intro hn
    simp [Scene.middleware, hn]

/-- Witness for C6: with alice engaged her message is finished and routed to
her dialogue; in a fresh scene the hook passes the message through
untouched. -/
theorem middleware_routing_witness :
    assocGet engagedScene.engaged (Scene.whoSpeaks engagedScene engagedMsg)
      = some (newDialogue defaultConfig) ∧
    Scene.middleware engagedScene engagedMsg =
      { finished := true, calledNext := false, calledDone := true,
        scene := { engagedScene with
          engaged := (assocSet engagedScene.engaged
            (Scene.whoSpeaks engagedScene engagedMsg)
            (Dialogue.receive (newDialogue defaultConfig) engagedMsg).2) } } ∧
    assocGet (initScene Scope.user).engaged
        (Scene.whoSpeaks (initScene Scope.user) engagedMsg) = none ∧
    Scene.middleware (initScene Scope.user) engagedMsg =
      { finished := false, calledNext := true, calledDone := false,
        scene := initScene Scope.user } :=
  ⟨rfl,
   (middleware_routing engagedScene engagedMsg).1 (newDialogue defaultConfig) rfl,
   rfl,
   (middleware_routing (initScene Scope.user) engagedMsg).2 rfl⟩

/-- Claim C10: with scope direct, `whoSpeaks` concatenates user id and room
id with a single underscore, so the key function is not injective: the
distinct participants (user "a_b", room "c") and (user "a", room "b_c") get
the same key, and once the first is engaged a message from the second is
treated as coming from the same engagement. -/
theorem whoSpeaks_direct_collision :
    Scene.whoSpeaks (initScene Scope.direct) directMsg1
      = Scene.whoSpeaks (initScene Scope.direct) directMsg2 ∧
    directMsg1.user ≠ directMsg2.user ∧
    directMsg1.room ≠ directMsg2.room ∧
    Scene.inDialogue
      (Scene.enter (initScene Scope.direct) [] directMsg1 [demoPathSpec]).2
      (Scene.whoSpeaks (initScene Scope.direct) directMsg2) = true := by
  refine ⟨rfl, ?_, ?_, ?_⟩
  · decide
  · decide
  · rfl

/-- Claim C2: branch resolution on an inbound message selects the first
branch, in registration order, whose pattern matches the text; later branches
— matching or not — are never invoked: the outcome is the effect of the first
matching branch alone, and replacing everything after the first matching
branch changes nothing. -/
theorem receive_first_match (d : Dialogue) (m : Msg) (pre post : List Branch)
    (b : Branch)
    (hend : d.ended = false)
    (hbr : d.branches = pre ++ b :: post)
    (hpre : ∀ x ∈ pre, x.regex m.text = false)
    (hb : b.regex m.text = true) :
    Dialogue.receive d m = (true, Dialogue.matchBranch d b m) ∧
    ∀ post2 : List Branch,
      Dialogue.receive { d with branches := pre ++ b :: post2 } m
        = Dialogue.receive d m := by
  have hfind : d.branches.find? (fun x => x.regex m.text) = some b := by
    rw [hbr]
    exact find?_first _ pre b post hpre hb
  have hmain : Dialogue.receive d m = (true, Dialogue.matchBranch d b m) := by
    simp [Dialogue.receive, hend, hfind]
  refine ⟨hmain, ?_⟩
  intro post2
  have hfind2 : (pre ++ b :: post2).find? (fun x => x.regex m.text) = some b :=
    find?_first _ pre b post2 hpre hb
  rw [hmain]
  calc Dialogue.receive { d with branches := pre ++ b :: post2 } m
      = (true, Dialogue.matchBranch { d with branches := pre ++ b :: post2 } b m) := by
        simp [Dialogue.receive, hend, hfind2]
    _ = (true, Dialogue.matchBranch d b m) := by
        rw [matchBranch_branches_irrel]

/-- Witness for C2: with live branches no / yes / catch-all and inbound text
yes, the second branch wins and the catch-all after it is never invoked. -/
theorem receive_first_match_witness :
    dialFirst.ended = false ∧
    dialFirst.branches = [branchNo] ++ branchYes :: [branchLate] ∧
    branchYes.regex msgYes.text = true ∧
    Dialogue.receive dialFirst msgYes = (true, Dialogue.matchBranch dialFirst branchYes msgYes) :=
  ⟨rfl, rfl, rfl,
    (receive_first_match dialFirst msgYes [branchNo] [branchLate] branchYes
      rfl rfl
      (by
        intro x hx
        rw [List.mem_singleton] at hx
        subst hx
        rfl)
      rfl).1⟩

/-- The final stage of a branch match, starting from the dialogue with the
live branch list already cleared: running the handler either leaves no
branches (the path closes and the dialogue ends successfully) or installs the
handler's valid additions as the new live set (the dialogue stays alive). -/
theorem matchTail_state (d4 : Dialogue) (h : Option HandlerSpec)
    (h4e : d4.ended = false) (h4b : d4.branches = [])
    (h4c : (Dialogue.currentPath d4).isSome = true) :
    (validAdds h = [] →
      (if (Dialogue.runHandler d4 h).branches.isEmpty then
          (Dialogue.endDialogue (Dialogue.closeCurrentPath (Dialogue.runHandler d4 h))).2
        else Dialogue.runHandler d4 h).ended = true ∧
      (Dialogue.currentPath
        (if (Dialogue.runHandler d4 h).branches.isEmpty then
            (Dialogue.endDialogue (Dialogue.closeCurrentPath (Dialogue.runHandler d4 h))).2
          else Dialogue.runHandler d4 h)).map Path.closed = some true ∧
      ((if (Dialogue.runHandler d4 h).branches.isEmpty then
            (Dialogue.endDialogue (Dialogue.closeCurrentPath (Dialogue.runHandler d4 h))).2
          else Dialogue.runHandler d4 h).events).getLast?
        = some (DEvent.endE true)) ∧
    (validAdds h ≠ [] →
      (if (Dialogue.runHandler d4 h).branches.isEmpty then
          (Dialogue.endDialogue (Dialogue.closeCurrentPath (Dialogue.runHandler d4 h))).2
        else Dialogue.runHandler d4 h).ended = false ∧
      (if (Dialogue.runHandler d4 h).branches.isEmpty then
          (Dialogue.endDialogue (Dialogue.closeCurrentPath (Dialogue.runHandler d4 h))).2
        else Dialogue.runHandler d4 h).branches = (validAdds h).map mkBranch) := by
  cases h with
  | none =>
      rw [runHandler_none]
      have hempty : d4.branches.isEmpty = true := by rw [h4b]; rfl
      have hif : (if d4.branches.isEmpty then
            (Dialogue.endDialogue (Dialogue.closeCurrentPath d4)).2
          else d4) = (Dialogue.endDialogue (Dialogue.closeCurrentPath d4)).2 := by
        rw [hempty]
        rfl
      rw [hif]
      constructor
      · intro _
        exact end_after_close d4 h4e h4c
      · intro hne
        exact absurd rfl hne
  | some hs =>
      obtain ⟨adds⟩ := hs
      obtain ⟨r1, r2, r3⟩ := runHandler_state adds d4 h4e
      rw [h4b, List.nil_append] at r2
      obtain ⟨r3a, r3b⟩ := r3 h4c
      by_cases hv : validAdds (some (HandlerSpec.mk adds)) = []
      · have hb5 : (Dialogue.runHandler d4 (some (HandlerSpec.mk adds))).branches = [] := by
          rw [r2, hv]
          rfl
        have hempty : (Dialogue.runHandler d4 (some (HandlerSpec.mk adds))).branches.isEmpty = true := by
          rw [hb5]
          rfl
        have hif : (if (Dialogue.runHandler d4 (some (HandlerSpec.mk adds))).branches.isEmpty then
              (Dialogue.endDialogue (Dialogue.closeCurrentPath
                (Dialogue.runHandler d4 (some (HandlerSpec.mk adds))))).2
            else Dialogue.runHandler d4 (some (HandlerSpec.mk adds)))
            = (Dialogue.endDialogue (Dialogue.closeCurrentPath
                (Dialogue.runHandler d4 (some (HandlerSpec.mk adds))))).2 := by
          rw [hempty]
          rfl
        rw [hif]
        constructor
        · intro _
          exact end_after_close _ r1 r3a
        · intro hne
          exact absurd hv hne
      · have hne5 : (Dialogue.runHandler d4 (some (HandlerSpec.mk adds))).branches ≠ [] := by
          rw [r2]
          intro hcon
          exact hv (List.map_eq_nil_iff.mp hcon)
        have hempty : (Dialogue.runHandler d4 (some (HandlerSpec.mk adds))).branches.isEmpty = false := by
          cases hcase : (Dialogue.runHandler d4 (some (HandlerSpec.mk adds))).branches with
          | nil => exact absurd hcase hne5
          | cons a l => rfl
        have hif : (if (Dialogue.runHandler d4 (some (HandlerSpec.mk adds))).branches.isEmpty then
              (Dialogue.endDialogue (Dialogue.closeCurrentPath
                (Dialogue.runHandler d4 (some (HandlerSpec.mk adds))))).2
            else Dialogue.runHandler d4 (some (HandlerSpec.mk adds)))
            = Dialogue.runHandler d4 (some (HandlerSpec.mk adds)) := by
          rw [hempty]
          rfl
        rw [hif]
        constructor
        · intro he
          exact absurd he hv
        · intro _
          exact ⟨r1, r2⟩

/-- Claim C3: after a branch match, if the handler's execution adds no (valid)
new branch the active path's closed flag becomes true and the dialogue ends
with `end` emitted last carrying success status true; if the handler
synchronously adds new branches the dialogue stays alive and those additions
entirely replace the previous live branch set. -/
theorem match_end_or_continue (d : Dialogue) (b : Branch) (m : Msg)
    (hend : d.ended = false)
    (hfind : d.branches.find? (fun x => x.regex m.text) = some b)
    (hcp : (Dialogue.currentPath d).isSome = true) :
    (validAdds b.handler = [] →
      (Dialogue.receive d m).2.ended = true ∧
      (Dialogue.currentPath (Dialogue.receive d m).2).map Path.closed = some true ∧
      ((Dialogue.receive d m).2.events).getLast? = some (DEvent.endE true)) ∧
    (validAdds b.handler ≠ [] →
      (Dialogue.receive d m).2.ended = false ∧
      (Dialogue.receive d m).2.branches = (validAdds b.handler).map mkBranch) := by
  have hrecv : (Dialogue.receive d m).2 = Dialogue.matchBranch d b m := by
    simp [Dialogue.receive, hend, hfind]
  rw [hrecv]
  have h3e : (Dialogue.clearBranches
      (Dialogue.recordMatch (Dialogue.clearTimeout d) m.user m.text)).ended = false := by
    rw [clearBranches_ended, recordMatch_ended, clearTimeout_ended]
    exact hend
  have h3b : (Dialogue.clearBranches
      (Dialogue.recordMatch (Dialogue.clearTimeout d) m.user m.text)).branches = [] := rfl
  have h3c : (Dialogue.currentPath (Dialogue.clearBranches
      (Dialogue.recordMatch (Dialogue.clearTimeout d) m.user m.text))).isSome = true := by
    rw [clearBranches_currentPath, recordMatch_currentPath_isSome,
      clearTimeout_currentPath]
    exact hcp
  cases hr : b.reply with
  | none =>
      have hMB : Dialogue.matchBranch d b m
          = (if (Dialogue.runHandler
                (Dialogue.clearBranches
                  (Dialogue.recordMatch (Dialogue.clearTimeout d) m.user m.text))
                b.handler).branches.isEmpty then
              (Dialogue.endDialogue (Dialogue.closeCurrentPath
                (Dialogue.runHandler
                  (Dialogue.clearBranches
                    (Dialogue.recordMatch (Dialogue.clearTimeout d) m.user m.text))
                  b.handler))).2
            else Dialogue.runHandler
                (Dialogue.clearBranches
                  (Dialogue.recordMatch (Dialogue.clearTimeout d) m.user m.text))
                b.handler) := by
        simp only [Dialogue.matchBranch, hr]
      rw [hMB]
      exact matchTail_state _ b.handler h3e h3b h3c
  | some r =>
      have h4e : (Dialogue.send (Dialogue.clearBranches
          (Dialogue.recordMatch (Dialogue.clearTimeout d) m.user m.text)) r).ended = false := by
        rw [send_ended]
        exact h3e
      have h4b : (Dialogue.send (Dialogue.clearBranches
          (Dialogue.recordMatch (Dialogue.clearTimeout d) m.user m.text)) r).branches = [] := by
        rw [send_branches]
        exact h3b
      have h4c : (Dialogue.currentPath (Dialogue.send (Dialogue.clearBranches
          (Dialogue.recordMatch (Dialogue.clearTimeout d) m.user m.text)) r)).isSome = true := by
        rw [send_currentPath_isSome]
        exact h3c
      have hMB : Dialogue.matchBranch d b m
          = (if (Dialogue.runHandler
                (Dialogue.send (Dialogue.clearBranches
                  (Dialogue.recordMatch (Dialogue.clearTimeout d) m.user m.text)) r)
                b.handler).branches.isEmpty then
              (Dialogue.endDialogue (Dialogue.closeCurrentPath
                (Dialogue.runHandler
                  (Dialogue.send (Dialogue.clearBranches
                    (Dialogue.recordMatch (Dialogue.clearTimeout d) m.user m.text)) r)
                  b.handler))).2
            else Dialogue.runHandler
                (Dialogue.send (Dialogue.clearBranches
                  (Dialogue.recordMatch (Dialogue.clearTimeout d) m.user m.text)) r)
                b.handler) := by
        simp only [Dialogue.matchBranch, hr]
      rw [hMB]
      exact matchTail_state _ b.handler h4e h4b h4c

/-- Witness for C3: matching the only branch of dialOne (handler adds
nothing) closes its path and ends it with success status true; matching the
only branch of dialGo (handler adds a follow-up branch) keeps it alive with
exactly the added branch live. -/
theorem match_end_or_continue_witness :
    (Dialogue.receive dialOne msgOne).2.ended = true ∧
    (Dialogue.currentPath (Dialogue.receive dialOne msgOne).2).map Path.closed
      = some true ∧
    ((Dialogue.receive dialOne msgOne).2.events).getLast?
      = some (DEvent.endE true) ∧
    (Dialogue.receive dialGo msgGo).2.ended = false ∧
    (Dialogue.receive dialGo msgGo).2.branches
      = (validAdds branchGo.handler).map mkBranch := by
  obtain ⟨a1, a2, a3⟩ :=
    (match_end_or_continue dialOne branchOne msgOne rfl rfl rfl).1 rfl
  have hne : validAdds branchGo.handler ≠ [] := by
    intro hcon
    have hx : ([((fun s => s == "yes" : String → Bool), some "ok",
        (none : Option HandlerSpec))] :
        List ((String → Bool) × Option String × Option HandlerSpec)) = [] := hcon
    exact List.noConfusion hx
  obtain ⟨b1, b2⟩ :=
    (match_end_or_continue dialGo branchGo msgGo rfl rfl rfl).2 hne
  exact ⟨a1, a2, a3, b1, b2⟩

theorem endStatus_send (d : Dialogue) (t : String) :
    Dialogue.endStatus (Dialogue.send d t) = Dialogue.endStatus d := by
  rw [endStatus_eq_closedMap, endStatus_eq_closedMap, send_closedMap]

/-- Folding `send` over a list of lines appends the corresponding send
events and preserves the ended flag and the end status. -/
theorem foldl_send_state (ts : List String) :
    ∀ d : Dialogue,
      (ts.foldl Dialogue.send d).events = d.events ++ ts.map DEvent.sendE ∧
      (ts.foldl Dialogue.send d).ended = d.ended ∧
      Dialogue.endStatus (ts.foldl Dialogue.send d) = Dialogue.endStatus d := by
  induction ts with
  | nil =>
      intro d
      exact ⟨(List.append_nil _).symm, rfl, rfl⟩
  | cons t rest ih =>
      intro d
      obtain ⟨i1, i2, i3⟩ := ih (Dialogue.send d t)
      refine ⟨?_, ?_, ?_⟩
      · rw [List.foldl_cons, i1, send_events]
        simp
      · rw [List.foldl_cons, i2, send_ended]
      · rw [List.foldl_cons, i3, endStatus_send]

/-- Running the onTimeout hook performs exactly the hook's sends and
preserves the ended flag and the end status, whether or not the hook
throws. -/
theorem runTimeoutHook_state (d : Dialogue) :
    (Dialogue.runTimeoutHook d).1.events
      = d.events ++ (Dialogue.hookSends d).map DEvent.sendE ∧
    (Dialogue.runTimeoutHook d).1.ended = d.ended ∧
    Dialogue.endStatus (Dialogue.runTimeoutHook d).1 = Dialogue.endStatus d := by
  cases hh : d.hook with
  | default =>
      have h1 : (Dialogue.runTimeoutHook d).1 = Dialogue.send d d.config.timeoutLine := by
        unfold Dialogue.runTimeoutHook
        rw [hh]
      have h2 : Dialogue.hookSends d = [d.config.timeoutLine] := by
        unfold Dialogue.hookSends
        rw [hh]
      exact ⟨by rw [h1, h2, send_events]; rfl,
             by rw [h1, send_ended],
             by rw [h1, endStatus_send]⟩
  | override sends throws =>
      have h1 : (Dialogue.runTimeoutHook d).1 = sends.foldl Dialogue.send d := by
        unfold Dialogue.runTimeoutHook
        rw [hh]
      have h2 : Dialogue.hookSends d = sends := by
        unfold Dialogue.hookSends
        rw [hh]
      obtain ⟨f1, f2, f3⟩ := foldl_send_state sends d
      exact ⟨by rw [h1, h2, f1], by rw [h1, f2], by rw [h1, f3]⟩

/-- The complete timeout firing sequence on a live dialogue: hook sends
first, then the `timeout` event, then the `end` event, and the dialogue is
ended afterwards. -/
theorem fireTimeout_state (d : Dialogue) (hend : d.ended = false) :
    (Dialogue.fireTimeout d).ended = true ∧
    (Dialogue.fireTimeout d).events
      = d.events ++ (Dialogue.hookSends d).map DEvent.sendE
        ++ [DEvent.timeoutE, DEvent.endE (Dialogue.endStatus d)] := by
  have hFD : Dialogue.fireTimeout d
      = (Dialogue.endDialogue { (Dialogue.runTimeoutHook d).1 with
          events := (Dialogue.runTimeoutHook d).1.events ++ [DEvent.timeoutE] }).2 := rfl
  obtain ⟨e1, e2, e3⟩ := runTimeoutHook_state d
  have hTe : ({ (Dialogue.runTimeoutHook d).1 with
      events := (Dialogue.runTimeoutHook d).1.events ++ [DEvent.timeoutE] } : Dialogue).ended
      = false := by
    show (Dialogue.runTimeoutHook d).1.ended = false
    rw [e2]
    exact hend
  constructor
  · rw [hFD]
    exact endDialogue_snd_ended _ hTe
  · rw [hFD, endDialogue_snd_events _ hTe]
    have hevT : ({ (Dialogue.runTimeoutHook d).1 with
        events := (Dialogue.runTimeoutHook d).1.events ++ [DEvent.timeoutE] } : Dialogue).events
        = d.events ++ (Dialogue.hookSends d).map DEvent.sendE ++ [DEvent.timeoutE] := by
      show (Dialogue.runTimeoutHook d).1.events ++ [DEvent.timeoutE] = _
      rw [e1]
    have hstT : Dialogue.endStatus ({ (Dialogue.runTimeoutHook d).1 with
        events := (Dialogue.runTimeoutHook d).1.events ++ [DEvent.timeoutE] } : Dialogue)
        = Dialogue.endStatus d := by
      have : Dialogue.endStatus ({ (Dialogue.runTimeoutHook d).1 with
          events := (Dialogue.runTimeoutHook d).1.events ++ [DEvent.timeoutE] } : Dialogue)
          = Dialogue.endStatus (Dialogue.runTimeoutHook d).1 := rfl
      rw [this, e3]
    rw [hevT, hstT]
    simp

/-- Claim C7: when a live dialogue's timeout fires, the sequence is — invoke
the (possibly overridden) onTimeout hook, emit `timeout`, then call `end()`;
the trace gains exactly the hook's sends, then the timeout event, then the
end event, and the dialogue is ended.  An exception thrown by an override
hook is caught internally: the sequence still completes through `end()` and
the observable outcome is identical to the same hook not throwing (nothing
propagates to the message loop). -/
theorem timeout_runs_to_end (d : Dialogue)
    (hend : d.ended = false) (_hcd : d.countdown = true) :
    (Dialogue.fireTimeout d).ended = true ∧
    (Dialogue.fireTimeout d).events
      = d.events ++ (Dialogue.hookSends d).map DEvent.sendE
        ++ [DEvent.timeoutE, DEvent.endE (Dialogue.endStatus d)] ∧
    ∀ sends : List String,
      (Dialogue.fireTimeout { d with hook := TimeoutHook.override sends true }).events
        = (Dialogue.fireTimeout { d with hook := TimeoutHook.override sends false }).events ∧
      (Dialogue.fireTimeout { d with hook := TimeoutHook.override sends true }).ended
        = (Dialogue.fireTimeout { d with hook := TimeoutHook.override sends false }).ended := by
  obtain ⟨m1, m2⟩ := fireTimeout_state d hend
  refine ⟨m1, m2, ?_⟩
  intro sends
  have hendT : ({ d with hook := TimeoutHook.override sends true } : Dialogue).ended
      = false := hend
  have hendF : ({ d with hook := TimeoutHook.override sends false } : Dialogue).ended
      = false := hend
  obtain ⟨t1, t2⟩ := fireTimeout_state { d with hook := TimeoutHook.override sends true } hendT
  obtain ⟨f1, f2⟩ := fireTimeout_state { d with hook := TimeoutHook.override sends false } hendF
  constructor
  · rw [t2, f2]
    rfl
  · rw [t1, f1]

/-- Witness for C7: firing the timeout of dialHook, whose override hook
sends one line and then throws, still runs hook sends, then timeout, then
end, leaving the dialogue ended. -/
theorem timeout_runs_to_end_witness :
    dialHook.ended = false ∧
    dialHook.countdown = true ∧
    (Dialogue.fireTimeout dialHook).ended = true ∧
    (Dialogue.fireTimeout dialHook).events
      = dialHook.events ++ (Dialogue.hookSends dialHook).map DEvent.sendE
        ++ [DEvent.timeoutE, DEvent.endE (Dialogue.endStatus dialHook)] :=
  ⟨rfl, rfl, (timeout_runs_to_end dialHook rfl rfl).1,
    (timeout_runs_to_end dialHook rfl rfl).2.1⟩

theorem clearBranches_pathId (d : Dialogue) :
    (Dialogue.clearBranches d).pathId = d.pathId := rfl

theorem clearTimeout_pathId (d : Dialogue) :
    (Dialogue.clearTimeout d).pathId = d.pathId := rfl

theorem startTimeout_pathId (d : Dialogue) :
    (Dialogue.startTimeout d).pathId = d.pathId := by
  unfold Dialogue.startTimeout
  split <;> rfl

theorem installDefaultPath_pathId_isSome (d : Dialogue) :
    (Dialogue.installDefaultPath d).pathId.isSome = true := by
  unfold Dialogue.installDefaultPath
  cases hp : d.pathId <;> simp [hp]

theorem addValidBranch_pathId_isSome (d : Dialogue) (rx : String → Bool)
    (r : Option String) (h : Option HandlerSpec) :
    (Dialogue.addValidBranch d rx r h).pathId.isSome = true := by
  unfold Dialogue.addValidBranch
  rw [startTimeout_pathId, clearTimeout_pathId, updatePath_pathId]
  show (Dialogue.installDefaultPath d).pathId.isSome = true
  exact installDefaultPath_pathId_isSome d

theorem foldl_addValid_pathId
    (bs : List ((String → Bool) × Option String × Option HandlerSpec)) :
    ∀ d : Dialogue, d.pathId.isSome = true →
      ((bs.foldl (fun d a => Dialogue.addValidBranch d a.1 a.2.1 a.2.2) d)).pathId.isSome
        = true := by
  induction bs with
  | nil => intro d h; exact h
  | cons a rest ih =>
      intro d _
      rw [List.foldl_cons]
      exact ih _ (addValidBranch_pathId_isSome d a.1 a.2.1 a.2.2)

theorem chain_pathId_isSome (d1 : Dialogue) (pr : Option String)
    (bs : List ((String → Bool) × Option String × Option HandlerSpec))
    (h : d1.pathId.isSome = true) :
    ((bs.foldl (fun d a => Dialogue.addValidBranch d a.1 a.2.1 a.2.2)
      (match pr with
       | some t => Dialogue.send (Dialogue.clearBranches d1) t
       | none => Dialogue.clearBranches d1))).pathId.isSome = true := by
  apply foldl_addValid_pathId
  cases pr with
  | some t =>
      rw [send_pathId, clearBranches_pathId]
      exact h
  | none =>
      rw [clearBranches_pathId]
      exact h

/-- `path` always leaves a current path id installed. -/
theorem path_pathId_isSome (d : Dialogue) (ps : PathSpec) :
    ((Dialogue.path d ps).2).pathId.isSome = true :=
  chain_pathId_isSome _ ps.prompt ps.branches rfl

theorem foldl_path_pres (cb : List PathSpec) :
    ∀ d0 : Dialogue, d0.pathId.isSome = true →
      ((cb.foldl (fun d ps => (Dialogue.path d ps).2) d0)).pathId.isSome = true := by
  induction cb with
  | nil => intro d0 h; exact h
  | cons c rest ih =>
      intro d0 _
      rw [List.foldl_cons]
      exact ih _ (path_pathId_isSome d0 c)

theorem exit_of_engaged (s : Scene) (m : Msg) (status : String) (d : Dialogue)
    (h : assocGet s.engaged (Scene.whoSpeaks s m) = some d) :
    Scene.exit s m status = (true,
      { s with engaged := assocDel s.engaged (Scene.whoSpeaks s m),
               events := s.events ++ [SceneEvent.exitE (Scene.whoSpeaks s m) status] }) := by
  simp [Scene.exit, h]

theorem exit_of_not_engaged (s : Scene) (m : Msg) (status : String)
    (h : assocGet s.engaged (Scene.whoSpeaks s m) = none) :
    Scene.exit s m status = (false, s) := by
  simp [Scene.exit, h]

/-- Claim C9: after a successful entry, if the callback added no path to the
newly created dialogue the Scene immediately exits the participant with
status "no path" (the key is disengaged and the trace shows enter then the
no-path exit); if the callback added a path, no such exit occurs — the
participant stays engaged and only `enter` was emitted. -/
theorem enter_no_path_exits (s : Scene) (mids : List MWPiece) (m : Msg)
    (cb : List PathSpec)
    (hni : Scene.inDialogue s (Scene.whoSpeaks s m) = false)
    (hmw : runStack mids = true) :
    (cb = [] →
      (Scene.enter s mids m cb).1 = EnterResult.ok ∧
      Scene.inDialogue (Scene.enter s mids m cb).2 (Scene.whoSpeaks s m) = false ∧
      (Scene.enter s mids m cb).2.events
        = s.events ++ [SceneEvent.enterE (Scene.whoSpeaks s m),
            SceneEvent.exitE (Scene.whoSpeaks s m) "no path"]) ∧
    (cb ≠ [] →
      (Scene.enter s mids m cb).1 = EnterResult.ok ∧
      Scene.inDialogue (Scene.enter s mids m cb).2 (Scene.whoSpeaks s m) = true ∧
      (Scene.enter s mids m cb).2.events
        = s.events ++ [SceneEvent.enterE (Scene.whoSpeaks s m)]) := by
  have hE : Scene.enter s mids m cb = (EnterResult.ok, Scene.processEnter s m cb) := by
    unfold Scene.enter
    rw [hni, hmw]
    rfl
  rw [hE]
  constructor
  · intro hcb
    subst hcb
    have hPE : Scene.processEnter s m [] = (Scene.exit
        { s with engaged := assocSet s.engaged (Scene.whoSpeaks s m) (newDialogue defaultConfig),
                 events := s.events ++ [SceneEvent.enterE (Scene.whoSpeaks s m)] }
        m "no path").2 := rfl
    have hg : assocGet (assocSet s.engaged (Scene.whoSpeaks s m) (newDialogue defaultConfig))
        (Scene.whoSpeaks s m) = some (newDialogue defaultConfig) := assocGet_set_eq _ _ _
    have hX : Scene.exit
        { s with engaged := assocSet s.engaged (Scene.whoSpeaks s m) (newDialogue defaultConfig),
                 events := s.events ++ [SceneEvent.enterE (Scene.whoSpeaks s m)] }
        m "no path"
        = (true, { s with
            engaged := assocDel
              (assocSet s.engaged (Scene.whoSpeaks s m) (newDialogue defaultConfig))
              (Scene.whoSpeaks s m),
            events := (s.events ++ [SceneEvent.enterE (Scene.whoSpeaks s m)])
              ++ [SceneEvent.exitE (Scene.whoSpeaks s m) "no path"] }) :=
      exit_of_engaged _ m "no path" (newDialogue defaultConfig) hg
    rw [hPE, hX]
    refine ⟨rfl, ?_, ?_⟩
    · show (assocGet (assocDel
          (assocSet s.engaged (Scene.whoSpeaks s m) (newDialogue defaultConfig))
          (Scene.whoSpeaks s m)) (Scene.whoSpeaks s m)).isSome = false
      rw [assocGet_del_eq]
      rfl
    · show (s.events ++ [SceneEvent.enterE (Scene.whoSpeaks s m)])
          ++ [SceneEvent.exitE (Scene.whoSpeaks s m) "no path"] = _
      simp
  · intro hcb
    obtain ⟨c, rest, hcr⟩ : ∃ c rest, cb = c :: rest := by
      cases cb with
      | nil => exact absurd rfl hcb
      | cons c rest => exact ⟨c, rest, rfl⟩
    subst hcr
    have hd1 : (((c :: rest).foldl (fun d ps => (Dialogue.path d ps).2)
        (newDialogue defaultConfig))).pathId.isSome = true := by
      rw [List.foldl_cons]
      exact foldl_path_pres rest _ (path_pathId_isSome _ _)
    have hPE : Scene.processEnter s m (c :: rest) = { s with
        engaged := (assocSet s.engaged (Scene.whoSpeaks s m)
          ((c :: rest).foldl (fun d ps => (Dialogue.path d ps).2)
            (newDialogue defaultConfig))),
        events := s.events ++ [SceneEvent.enterE (Scene.whoSpeaks s m)] } := by
      simp only [Scene.processEnter]
      rw [hd1]
      rfl
    rw [hPE]
    refine ⟨rfl, ?_, rfl⟩
    show (assocGet (assocSet s.engaged (Scene.whoSpeaks s m)
        ((c :: rest).foldl (fun d ps => (Dialogue.path d ps).2)
          (newDialogue defaultConfig))) (Scene.whoSpeaks s m)).isSome = true
    rw [assocGet_set_eq]
    rfl

/-- Witness for C9: entering with an empty callback leaves the participant
disengaged (no-path exit), entering with a path-adding callback leaves them
engaged. -/
theorem enter_no_path_exits_witness :
    Scene.inDialogue (initScene Scope.user)
      (Scene.whoSpeaks (initScene Scope.user) demoMsg) = false ∧
    runStack [] = true ∧
    Scene.inDialogue (Scene.enter (initScene Scope.user) [] demoMsg []).2
      (Scene.whoSpeaks (initScene Scope.user) demoMsg) = false ∧
    Scene.inDialogue (Scene.enter (initScene Scope.user) [] demoMsg [demoPathSpec]).2
      (Scene.whoSpeaks (initScene Scope.user) demoMsg) = true := by
  refine ⟨rfl, rfl, ?_, ?_⟩
  · exact ((enter_no_path_exits (initScene Scope.user) [] demoMsg [] rfl rfl).1 rfl).2.1
  · exact ((enter_no_path_exits (initScene Scope.user) [] demoMsg [demoPathSpec]
      rfl rfl).2 (List.cons_ne_nil _ _)).2.1

theorem foldl_addValid_ended
    (bs : List ((String → Bool) × Option String × Option HandlerSpec)) :
    ∀ d : Dialogue,
      ((bs.foldl (fun d a => Dialogue.addValidBranch d a.1 a.2.1 a.2.2) d)).ended
        = d.ended := by
  induction bs with
  | nil => intro d; rfl
  | cons a rest ih =>
      intro d
      rw [List.foldl_cons, ih, addValidBranch_ended]

theorem chain_ended (d1 : Dialogue) (pr : Option String)
    (bs : List ((String → Bool) × Option String × Option HandlerSpec)) :
    ((bs.foldl (fun d a => Dialogue.addValidBranch d a.1 a.2.1 a.2.2)
      (match pr with
       | some t => Dialogue.send (Dialogue.clearBranches d1) t
       | none => Dialogue.clearBranches d1))).ended = d1.ended := by
  rw [foldl_addValid_ended]
  cases pr with
  | some t => rw [send_ended, clearBranches_ended]
  | none => rw [clearBranches_ended]

/-- `path` never changes the ended flag. -/
theorem path_ended (d : Dialogue) (ps : PathSpec) :
    ((Dialogue.path d ps).2).ended = d.ended :=
  chain_ended _ ps.prompt ps.branches

theorem foldl_path_ended (cb : List PathSpec) :
    ∀ d0 : Dialogue,
      ((cb.foldl (fun d ps => (Dialogue.path d ps).2) d0)).ended = d0.ended := by
  induction cb with
  | nil => intro d0; rfl
  | cons c rest ih =>
      intro d0
      rw [List.foldl_cons, ih, path_ended]

theorem inv_set (R : List (String × Dialogue)) (K : String) (x : Dialogue)
    (hx : x.ended = false)
    (hInv : ∀ k d, assocGet R k = some d → d.ended = false) :
    ∀ k d, assocGet (assocSet R K x) k = some d → d.ended = false := by
  intro k d hk
  by_cases hkK : k = K
  · subst hkK
    rw [assocGet_set_eq] at hk
    injection hk with h
    subst h
    exact hx
  · rw [assocGet_set_ne _ _ _ _ hkK] at hk
    exact hInv k d hk

theorem inv_set_ne (R : List (String × Dialogue)) (K : String) (x : Dialogue)
    (hInv : ∀ k d, assocGet R k = some d → d.ended = false) :
    ∀ k d, k ≠ K → assocGet (assocSet R K x) k = some d → d.ended = false := by
  intro k d hkK hk
  rw [assocGet_set_ne _ _ _ _ hkK] at hk
  exact hInv k d hk

/-- `exit` keeps the invariant as long as every key other than the exited one
maps to a live dialogue — the exited key itself is removed, so its dialogue
may be in any state (reentrancy from the dialogue's own end/timeout
listeners). -/
theorem sceneInv_exit_any (s : Scene) (m : Msg) (status : String)
    (hInv : ∀ k d, k ≠ Scene.whoSpeaks s m →
      assocGet s.engaged k = some d → d.ended = false) :
    SceneInv (Scene.exit s m status).2 := by
  cases hg : assocGet s.engaged (Scene.whoSpeaks s m) with
  | some d0 =>
      rw [exit_of_engaged s m status d0 hg]
      intro k d hk
      by_cases hkK : k = Scene.whoSpeaks s m
      · subst hkK
        have hk2 : assocGet (assocDel s.engaged (Scene.whoSpeaks s m))
            (Scene.whoSpeaks s m) = some d := hk
        rw [assocGet_del_eq] at hk2
        exact Option.noConfusion hk2
      · have hk2 : assocGet (assocDel s.engaged (Scene.whoSpeaks s m)) k = some d := hk
        rw [assocGet_del_ne _ _ _ hkK] at hk2
        exact hInv k d hkK hk2
  | none =>
      rw [exit_of_not_engaged s m status hg]
      intro k d hk
      by_cases hkK : k = Scene.whoSpeaks s m
      · subst hkK
        rw [hg] at hk
        exact Option.noConfusion hk
      · exact hInv k d hkK hk

/-- Every scene operation preserves the lockstep invariant: engaged
registries only ever hold live dialogues. -/
theorem sceneInv_step (s : Scene) (op : SceneOp) (hInv : SceneInv s) :
    SceneInv (Scene.step s op) := by
  cases op with
  | enterOp mids m cb =>
      show SceneInv (Scene.enter s mids m cb).2
      cases h1 : Scene.inDialogue s (Scene.whoSpeaks s m) with
      | true =>
          have hE : Scene.enter s mids m cb = (EnterResult.alreadyEngaged, s) := by
            unfold Scene.enter
            rw [h1]
            rfl
          rw [hE]
          exact hInv
      | false =>
          cases h2 : runStack mids with
          | false =>
              have hE : Scene.enter s mids m cb = (EnterResult.interrupted, s) := by
                unfold Scene.enter
                rw [h1, h2]
                rfl
              rw [hE]
              exact hInv
          | true =>
              have hE : Scene.enter s mids m cb
                  = (EnterResult.ok, Scene.processEnter s m cb) := by
                unfold Scene.enter
                rw [h1, h2]
                rfl
              rw [hE]
              show SceneInv (Scene.processEnter s m cb)
              have hd1e : ((cb.foldl (fun d ps => (Dialogue.path d ps).2)
                  (newDialogue defaultConfig))).ended = false := by
                rw [foldl_path_ended]
                rfl
              cases hps : ((cb.foldl (fun d ps => (Dialogue.path d ps).2)
                  (newDialogue defaultConfig))).pathId.isSome with
              | true =>
                  have hPE : Scene.processEnter s m cb = { s with
                      engaged := (assocSet s.engaged (Scene.whoSpeaks s m)
                        ((cb.foldl (fun d ps => (Dialogue.path d ps).2)
                          (newDialogue defaultConfig)))),
                      events := s.events
                        ++ [SceneEvent.enterE (Scene.whoSpeaks s m)] } := by
                    simp only [Scene.processEnter]
                    rw [hps]
                    rfl
                  rw [hPE]
                  exact inv_set s.engaged (Scene.whoSpeaks s m) _ hd1e hInv
              | false =>
                  have hPE : Scene.processEnter s m cb = (Scene.exit { s with
                      engaged := (assocSet s.engaged (Scene.whoSpeaks s m)
                        ((cb.foldl (fun d ps => (Dialogue.path d ps).2)
                          (newDialogue defaultConfig)))),
                      events := s.events
                        ++ [SceneEvent.enterE (Scene.whoSpeaks s m)] }
                      m "no path").2 := by
                    simp only [Scene.processEnter]
                    rw [hps]
                    rfl
                  rw [hPE]
                  apply sceneInv_exit_any
                  exact fun k d hkK hk =>
                    inv_set_ne s.engaged (Scene.whoSpeaks s m) _ hInv k d hkK hk
  | exitOp m status =>
      show SceneInv (Scene.exit s m status).2
      exact sceneInv_exit_any s m status (fun k d _ hk => hInv k d hk)
  | dEndOp m =>
      cases hg : assocGet s.engaged (Scene.whoSpeaks s m) with
      | none =>
          have hstep : Scene.step s (SceneOp.dEndOp m) = s := by
            simp only [Scene.step]
            rw [hg]
          rw [hstep]
          exact hInv
      | some d0 =>
          have hstep : Scene.step s (SceneOp.dEndOp m) = (Scene.exit { s with
              engaged := (assocSet s.engaged (Scene.whoSpeaks s m)
                (Dialogue.endDialogue d0).2) } m
              (if Dialogue.endStatus d0 then "complete" else "incomplete")).2 := by
            simp only [Scene.step]
            rw [hg]
          rw [hstep]
          apply sceneInv_exit_any
          exact fun k d hkK hk =>
            inv_set_ne s.engaged (Scene.whoSpeaks s m) _ hInv k d hkK hk
  | dTimeoutOp m =>
      cases hg : assocGet s.engaged (Scene.whoSpeaks s m) with
      | none =>
          have hstep : Scene.step s (SceneOp.dTimeoutOp m) = s := by
            simp only [Scene.step]
            rw [hg]
          rw [hstep]
          exact hInv
      | some d0 =>
          have hstep : Scene.step s (SceneOp.dTimeoutOp m) = (Scene.exit { s with
              engaged := (assocSet s.engaged (Scene.whoSpeaks s m)
                (Dialogue.fireTimeout d0)) } m "timeout").2 := by
            simp only [Scene.step]
            rw [hg]
          rw [hstep]
          apply sceneInv_exit_any
          exact fun k d hkK hk =>
            inv_set_ne s.engaged (Scene.whoSpeaks s m) _ hInv k d hkK hk

theorem sceneInv_run (ops : List SceneOp) :
    ∀ s : Scene, SceneInv s → SceneInv (ops.foldl Scene.step s) := by
  induction ops with
  | nil => intro s h; exact h
  | cons op rest ih =>
      intro s h
      rw [List.foldl_cons]
      exact ih _ (sceneInv_step s op h)

theorem enter_ok_of_not_engaged (s : Scene) (m : Msg) (cb : List PathSpec)
    (hni : Scene.inDialogue s (Scene.whoSpeaks s m) = false) :
    (Scene.enter s [] m cb).1 = EnterResult.ok := by
  unfold Scene.enter
  rw [hni]
  rfl

/-- Claim C1: for every Scene, after any sequence of enter / exit /
dialogue-end / dialogue-timeout operations starting from a fresh scene, a
participant key is present in the engaged registry if and only if a live,
non-ended Dialogue is registered for it — the Scene's listeners on the
Dialogue's end and timeout events (modelled by the dEnd/dTimeout steps)
keep the two in lockstep — and `exit` followed immediately by `enter` for
the same participant key succeeds. -/
theorem scene_dialogue_lockstep (scope : Scope) :
    (∀ ops : List SceneOp,
      SceneInv (ops.foldl Scene.step (initScene scope)) ∧
      ∀ k : String,
        Scene.inDialogue (ops.foldl Scene.step (initScene scope)) k = true ↔
          ∃ d : Dialogue,
            Scene.getDialogue (ops.foldl Scene.step (initScene scope)) k = some d ∧
              d.ended = false) ∧
    ∀ (s : Scene) (m : Msg) (status : String) (cb : List PathSpec),
      (Scene.enter (Scene.exit s m status).2 [] m cb).1 = EnterResult.ok := by
  constructor
  · intro ops
    have hInv : SceneInv (ops.foldl Scene.step (initScene scope)) := by
      apply sceneInv_run
      intro k d hk
      exact Option.noConfusion hk
    refine ⟨hInv, ?_⟩
    intro k
    constructor
    · intro hin
      cases hg : assocGet ((ops.foldl Scene.step (initScene scope))).engaged k with
      | none =>
          unfold Scene.inDialogue at hin
          rw [hg] at hin
          exact Bool.noConfusion hin
      | some d =>
          exact ⟨d, hg, hInv k d hg⟩
    · rintro ⟨d, hd, _⟩
      unfold Scene.getDialogue at hd
      unfold Scene.inDialogue
      rw [hd]
      rfl
  · intro s m status cb
    cases hg : assocGet s.engaged (Scene.whoSpeaks s m) with
    | some d0 =>
        rw [exit_of_engaged s m status d0 hg]
        apply enter_ok_of_not_engaged
        show (assocGet (assocDel s.engaged (Scene.whoSpeaks s m))
          (Scene.whoSpeaks s m)).isSome = false
        rw [assocGet_del_eq]
        rfl
    | none =>
        rw [exit_of_not_engaged s m status hg]
        apply enter_ok_of_not_engaged
        show (assocGet s.engaged (Scene.whoSpeaks s m)).isSome = false
        rw [hg]
        rfl

end Playbook
